import Mathlib

/-!
Verification of the Bgpt command safety/classification pipeline:
`bgpt/core/safety.py` (SafetyChecker) and
`build/lib/bgpt/core/command_parser.py` (CommandParser).

Python strings are modelled as `List Char`; Python `str` helpers
(`strip`, `split`, `startswith`, `endswith`, substring containment) are
given faithful executable models, as are `shlex.split` (POSIX mode) and
the two redirection regexes.  Fallible code paths are modelled with
`Except`; the catch-all handler of `CommandParser.parse` is the `match`
on the `Except` value.
-/

namespace Bgpt

/-- Python strings are lists of characters. -/
abbrev Str := List Char

/-- Whitespace for Python `str.strip` / `str.split`:
space, tab, newline, carriage return, vertical tab, form feed. -/
def pyIsSpace (c : Char) : Bool :=
  c = ' ' || c = '\t' || c = '\n' || c = '\r' || c = '\x0b' || c = '\x0c'

/-- Python `str.strip()`: drop leading and trailing whitespace. -/
def pyStrip (s : Str) : Str :=
  ((s.dropWhile pyIsSpace).reverse.dropWhile pyIsSpace).reverse

/-- Python `str.startswith(pfx)`. -/
def pyStartsWith (pfx s : Str) : Bool := pfx.isPrefixOf s

/-- Python `str.endswith(sfx)`. -/
def pyEndsWith (sfx s : Str) : Bool := sfx.isSuffixOf s

/-- Python `str.split()` with no separator: split on whitespace runs,
discarding empty fields. -/
def pySplitWs (s : Str) : List Str :=
  (s.splitOnP pyIsSpace).filter (fun t => !t.isEmpty)

/-- Python `str.split(sep)` for a one-character separator: split at every
occurrence, keeping empty fields. -/
def pySplitChar (sep : Char) (s : Str) : List Str := s.splitOn sep

/-- `s.split(c)[0]`: the prefix of `s` before the first occurrence of `c`. -/
def takeUntilChar (t : Char) (s : Str) : Str := s.takeWhile (fun c => c != t)

/-- Python substring containment `needle in hay` (`in` on `str`). -/
def isSubstr (needle : Str) : Str → Bool
  | [] => needle.isEmpty
  | c :: rest => needle.isPrefixOf (c :: rest) || isSubstr needle rest

/-- The parsed command structure (`ParsedCommand` dataclass). -/
structure ParsedCommand where
  raw_command : Str
  base_command : Str
  arguments : List Str
  flags : List Str
  redirections : List (Str × Str)
  pipes : List Str
  environment_vars : List (Str × Str)
  background : Bool
  uses_sudo : Bool
  file_operations : List Str
  network_operations : List Str
  system_operations : List Str
deriving DecidableEq

/-- The `SafetyLevel` enum of `ai_engine.py` (LOW / MEDIUM / HIGH). -/
inductive SafetyLevel where
  | low
  | medium
  | high
deriving DecidableEq

/-- The `SafetyResult` dataclass of `safety.py`. -/
structure SafetyResult where
  allow_execution : Bool
  risk_level : SafetyLevel
  warnings : List Str
  sandbox : Bool
  requires_confirmation : Bool
deriving DecidableEq

/-- `SafetyChecker.BLOCKED_COMMANDS` (a Python set literal; modelled as a
list in the order written in the source — the claims below only use
membership, never position). -/
def BLOCKED_COMMANDS : List Str :=
  ["rm -rf /", "mkfs", "format", "fdisk /dev/", "dd if=",
   ":()\x7b :|:& \x7d;:"].map String.data

/-- The warning text `f"Blocked dangerous command: {blocked}"`. -/
def blockedWarning (b : Str) : Str := "Blocked dangerous command: ".data ++ b

/-- One iteration of the `for blocked in self.BLOCKED_COMMANDS` loop in
`check_command`: accumulate (warnings, allow_execution). -/
def blockedStep (raw : Str) (acc : List Str × Bool) (b : Str) : List Str × Bool :=
  if isSubstr b raw then (acc.1 ++ [blockedWarning b], false) else acc

/-- `SafetyChecker.check_command`. -/
def checkCommand (p : ParsedCommand) (ai_safety_level : SafetyLevel) : SafetyResult :=
  let wa := BLOCKED_COMMANDS.foldl (blockedStep p.raw_command) ([], true)
  let sudoStep :=
    if p.uses_sudo then (wa.1 ++ ["Command requires sudo privileges".data], true)
    else (wa.1, false)
  let warnings3 :=
    if p.file_operations.isEmpty then sudoStep.1
    else sudoStep.1 ++ ["Command performs file operations".data]
  let netStep :=
    if p.network_operations.isEmpty then (warnings3, false)
    else (warnings3 ++ ["Command performs network operations".data], true)
  { allow_execution := wa.2
    risk_level := ai_safety_level
    warnings := netStep.1
    sandbox := netStep.2
    requires_confirmation := sudoStep.2 || (ai_safety_level != SafetyLevel.low) }

/-- `CommandParser._calculate_complexity`. -/
def calculateComplexity (p : ParsedCommand) : Nat :=
  let score := 0
  let score := score + min p.arguments.length 3
  let score := score + min p.flags.length 3
  let score := if !p.pipes.isEmpty then score + 2 else score
  let score := if !p.redirections.isEmpty then score + 1 else score
  let score := if p.uses_sudo then score + 1 else score
  let score := if !p.file_operations.isEmpty then score + 1 else score
  let score := if !p.network_operations.isEmpty then score + 2 else score
  let score := if !p.system_operations.isEmpty then score + 2 else score
  min score 10

/-- The dictionary returned by `CommandParser.get_command_info`. -/
structure CommandInfo where
  base_command : Str
  argument_count : Nat
  flag_count : Nat
  has_pipes : Bool
  has_redirections : Bool
  uses_sudo : Bool
  runs_background : Bool
  file_operations : List Str
  network_operations : List Str
  system_operations : List Str
  complexity_score : Nat
deriving DecidableEq

/-- `CommandParser.get_command_info`. -/
def getCommandInfo (p : ParsedCommand) : CommandInfo :=
  { base_command := p.base_command
    argument_count := p.arguments.length
    flag_count := p.flags.length
    has_pipes := p.pipes.length > 0
    has_redirections := p.redirections.length > 0
    uses_sudo := p.uses_sudo
    runs_background := p.background
    file_operations := p.file_operations
    network_operations := p.network_operations
    system_operations := p.system_operations
    complexity_score := calculateComplexity p }

/-- Whitespace for `shlex` (`shlex.whitespace = " \t\r\n"` — narrower than
Python `str.strip`). -/
def shlexIsSpace (c : Char) : Bool :=
  c = ' ' || c = '\t' || c = '\r' || c = '\n'

/-- The single-quote character (written by code point to keep source clean). -/
def squote : Char := Char.ofNat 39

/-- Lexer mode of `shlex`: outside quotes, inside single quotes, inside
double quotes. -/
inductive ShlexMode where
  | top
  | single
  | double
deriving DecidableEq

/-- The token loop of `shlex.split` in POSIX mode with whitespace splitting:
`cur` is the current token (reversed), `inTok` records whether a token has
been started (so empty quoted strings yield empty tokens), `acc` the tokens
emitted so far.  Unbalanced quotes raise `No closing quotation`; a trailing
escape character raises `No escaped character`. -/
def shlexRun : Str → ShlexMode → Str → Bool → List Str → Except String (List Str)
  | [], ShlexMode.top, cur, inTok, acc =>
    Except.ok (acc ++ if inTok then [cur.reverse] else [])
  | [], ShlexMode.single, _, _, _ => Except.error ("No closing quotation")
  | [], ShlexMode.double, _, _, _ => Except.error ("No closing quotation")
  | c :: rest, ShlexMode.top, cur, inTok, acc =>
    if shlexIsSpace c then
      if inTok then shlexRun rest ShlexMode.top [] false (acc ++ [cur.reverse])
      else shlexRun rest ShlexMode.top [] false acc
    else if c = squote then shlexRun rest ShlexMode.single cur true acc
    else if c = '"' then shlexRun rest ShlexMode.double cur true acc
    else if c = '\\' then
      match rest with
      | [] => Except.error ("No escaped character")
      | d :: rest2 => shlexRun rest2 ShlexMode.top (d :: cur) true acc
    else shlexRun rest ShlexMode.top (c :: cur) true acc
  | c :: rest, ShlexMode.single, cur, _, acc =>
    if c = squote then shlexRun rest ShlexMode.top cur true acc
    else shlexRun rest ShlexMode.single (c :: cur) true acc
  | c :: rest, ShlexMode.double, cur, _, acc =>
    if c = '"' then shlexRun rest ShlexMode.top cur true acc
    else if c = '\\' then
      match rest with
      | [] => Except.error ("No escaped character")
      | d :: rest2 =>
        if d = '"' || d = '\\' then shlexRun rest2 ShlexMode.double (d :: cur) true acc
        else shlexRun rest2 ShlexMode.double (d :: '\\' :: cur) true acc
    else shlexRun rest ShlexMode.double (c :: cur) true acc

/-- `shlex.split` (POSIX mode, no comments). -/
def shlexSplit (s : Str) : Except String (List Str) :=
  shlexRun s ShlexMode.top [] false []

/-- ASCII model of the first-character test of Python `str.isidentifier`. -/
def isIdentStart (c : Char) : Bool := c.isAlpha || c = '_'

/-- ASCII model of the continuation-character test of `str.isidentifier`. -/
def isIdentChar (c : Char) : Bool := c.isAlphanum || c = '_'

/-- ASCII model of Python `str.isidentifier` (nonempty; letter or underscore
first, then letters, digits or underscores). -/
def pyIsIdentifier : Str → Bool
  | [] => false
  | c :: rest => isIdentStart c && rest.all isIdentChar

/-- `part.split('=', 1)`: the text before the first `=` and the text after it. -/
def splitEq1 (part : Str) : Str × Str :=
  (part.takeWhile (fun c => c != '='), (part.dropWhile (fun c => c != '=')).drop 1)

/-- Python-dict insertion: an existing key keeps its position and gets the
new value, a new key is appended. -/
def dictInsert (k v : Str) : List (Str × Str) → List (Str × Str)
  | [] => [(k, v)]
  | (k2, v2) :: rest =>
    if k2 = k then (k, v) :: rest else (k2, v2) :: dictInsert k v rest

/-- Python-dict lookup. -/
def dictLookup (k : Str) : List (Str × Str) → Option Str
  | [] => none
  | (k2, v2) :: rest => if k2 = k then some v2 else dictLookup k rest

/-- One iteration of the token loop in `CommandParser._extract_env_vars`. -/
def envStep (acc : List (Str × Str)) (part : Str) : List (Str × Str) :=
  if part.contains '=' && !pyStartsWith ['-'] part then
    let kv := splitEq1 part
    if pyIsIdentifier kv.1 then dictInsert kv.1 kv.2 acc else acc
  else acc

/-- `CommandParser._extract_env_vars`: scan all whitespace-split tokens. -/
def extractEnvVars (command : Str) : List (Str × Str) :=
  (pySplitWs command).foldl envStep []

/-- `CommandParser._extract_pipes`: naive split on every `|` character,
trimmed segments after the first. -/
def extractPipes (command : Str) : List Str :=
  if command.contains '|' then ((pySplitChar '|' command).drop 1).map pyStrip
  else []

/-- Match of the regex `(\d*>>\?|\d*>)` at the head of `s`: note that `\?`
in the source pattern is an escaped literal question mark, so the first
alternative requires the three characters `>>?`.  Returns the matched text
and the remainder of the string after the match. -/
def outRedirMatch (s : Str) : Option (Str × Str) :=
  let ds := s.takeWhile Char.isDigit
  match s.dropWhile Char.isDigit with
  | '>' :: '>' :: '?' :: r => some (ds ++ ['>', '>', '?'], r)
  | '>' :: r => some (ds ++ ['>'], r)
  | _ => none

/-- The body of the output-redirection loop: for a match ending at a given
point, the target is the first whitespace token of the stripped remainder
(no pair is recorded when nothing follows). -/
def outRedirPair (m after : Str) : List (Str × Str) :=
  let remaining := pyStrip after
  if remaining.isEmpty then [] else [(m, (pySplitWs remaining).headD [])]

/-- `re.finditer` for the output-redirection regex, with the loop body of
`_extract_redirections`: scan left to right, matches do not overlap.  The
fuel is the length of the scanned string; each step consumes at least one
character, so the fuel never runs out. -/
def outRedirScanF : Nat → Str → List (Str × Str)
  | 0, _ => []
  | _, [] => []
  | Nat.succ n, c :: rest =>
    match outRedirMatch (c :: rest) with
    | some (m, after) => outRedirPair m after ++ outRedirScanF n after
    | none => outRedirScanF n rest

/-- Match of the regex `<\s*(\S+)` at the head of `s`: a `<`, optional
whitespace, then a nonempty run of non-whitespace (the captured target).
Returns the target and the remainder after the whole match. -/
def inRedirMatch (s : Str) : Option (Str × Str) :=
  match s with
  | '<' :: r =>
    let r2 := r.dropWhile pyIsSpace
    let tgt := r2.takeWhile (fun c => !pyIsSpace c)
    if tgt.isEmpty then none else some (tgt, r2.drop tgt.length)
  | _ => none

/-- `re.finditer` for the input-redirection regex (same fuel scheme). -/
def inRedirScanF : Nat → Str → List (Str × Str)
  | 0, _ => []
  | _, [] => []
  | Nat.succ n, c :: rest =>
    match inRedirMatch (c :: rest) with
    | some (tgt, after) => (['<'], tgt) :: inRedirScanF n after
    | none => inRedirScanF n rest

/-- `CommandParser._extract_redirections`: all output-redirection pairs in
order, then all input-redirection pairs in order. -/
def extractRedirections (command : Str) : List (Str × Str) :=
  outRedirScanF command.length command ++ inRedirScanF command.length command

/-- `re.search(w + r'\s+', s)` for a literal word `w`: the word occurs
somewhere followed by at least one whitespace character. -/
def searchWordWs (w : Str) : Str → Bool
  | [] => false
  | c :: rest =>
    (w.isPrefixOf (c :: rest) &&
      match (c :: rest).drop w.length with
      | d :: _ => pyIsSpace d
      | [] => false) ||
    searchWordWs w rest

/-- Does `.*@` (any run of non-newline characters, then `@`) match a prefix
starting here? -/
def dotStarAt : Str → Bool
  | [] => false
  | c :: rest => c = '@' || (c != '\n' && dotStarAt rest)

/-- Does `\s*.*@` match a prefix starting here? -/
def wsStarDotAt : Str → Bool
  | [] => false
  | c :: rest => dotStarAt (c :: rest) || (pyIsSpace c && wsStarDotAt rest)

/-- `re.search(r'rsync\s+.*@', s)`. -/
def searchRsync : Str → Bool
  | [] => false
  | c :: rest =>
    (("rsync".data).isPrefixOf (c :: rest) &&
      match (c :: rest).drop 5 with
      | d :: r => pyIsSpace d && (dotStarAt r || wsStarDotAt r)
      | [] => false) ||
    searchRsync rest

/-- `CommandParser._analyze_file_operations`: each matched pattern
contributes its name with `\s+` removed.  The Python pattern table is a set
literal; it is modelled in source order (claims only use emptiness). -/
def analyzeFileOperations (command : Str) : List Str :=
  (["cp", "mv", "rm", "mkdir", "rmdir", "touch", "ln", "tar", "zip", "unzip"].map
    String.data).filter (fun w => searchWordWs w command)

/-- `CommandParser._analyze_network_operations` (the `rsync\s+.*@` pattern
becomes the label `rsync.*@` after `\s+` removal). -/
def analyzeNetworkOperations (command : Str) : List Str :=
  ((["curl", "wget", "ssh", "scp"].map String.data).filter
      (fun w => searchWordWs w command)) ++
  (if searchRsync command then ["rsync.*@".data] else []) ++
  ((["nc", "netcat", "telnet", "ftp", "sftp"].map String.data).filter
      (fun w => searchWordWs w command))

/-- `CommandParser._analyze_system_operations`. -/
def analyzeSystemOperations (command : Str) : List Str :=
  (["systemctl", "service", "mount", "umount", "modprobe", "insmod", "rmmod",
    "iptables"].map String.data).filter (fun w => searchWordWs w command)

/-- The normalisation steps of `CommandParser.parse` before tokenization:
strip, sudo detection and removal, environment-variable extraction,
background-marker detection and removal. -/
structure PreProc where
  uses_sudo : Bool
  env_vars : List (Str × Str)
  background : Bool
  cleaned : Str
deriving DecidableEq

/-- The literal `'sudo '` prefix tested by `command.startswith('sudo ')`. -/
def sudoTok : Str := "sudo ".data

/-- The literal `' &'` suffix tested by `command.endswith(' &')`. -/
def ampTok : Str := " &".data

/-- Lines 74–91 of `CommandParser.parse` (everything before pipe /
redirection / token extraction). -/
def preprocess (command : Str) : PreProc :=
  let c0 := pyStrip command
  let uses_sudo := pyStartsWith sudoTok c0
  let c1 := if uses_sudo then pyStrip (c0.drop 5) else c0
  let env := extractEnvVars c1
  let background := pyEndsWith ampTok c1
  let c2 := if background then pyStrip (c1.take (c1.length - 2)) else c1
  ⟨uses_sudo, env, background, c2⟩

/-- `command.split('|')[0].split('>')[0].split('<')[0]`: the text fed to
`shlex.split`. -/
def shlexInput (c : Str) : Str :=
  takeUntilChar '<' (takeUntilChar '>' (takeUntilChar '|' c))

/-- The `for part in parts[1:]` loop: split the tokens after the base
command into (arguments, flags), order preserved within each bucket. -/
def classifyParts : List Str → List Str × List Str
  | [] => ([], [])
  | p :: rest =>
    let ar := classifyParts rest
    if pyStartsWith ['-'] p then (ar.1, p :: ar.2) else (p :: ar.1, ar.2)

/-- The `except` handler of `CommandParser.parse`: the "minimal parsed
command" built from the (already rebound) local `command` variable. -/
def minimalParsed (command : Str) : ParsedCommand :=
  { raw_command := command
    base_command := (pySplitWs command).headD []
    arguments := []
    flags := []
    redirections := []
    pipes := []
    environment_vars := []
    background := false
    uses_sudo := pyStartsWith sudoTok command
    file_operations := []
    network_operations := []
    system_operations := [] }

/-- The `ParsedCommand` built on the success path of `parse` (lines
116–129), including the canonical reassembly of `raw_command`. -/
def successParsed (pp : PreProc) (base : Str) (rest : List Str) : ParsedCommand :=
  { raw_command :=
      (if pp.uses_sudo then sudoTok else []) ++ pp.cleaned ++
        (if pp.background then ['&'] else [])
    base_command := base
    arguments := (classifyParts rest).1
    flags := (classifyParts rest).2
    redirections := extractRedirections pp.cleaned
    pipes := extractPipes pp.cleaned
    environment_vars := pp.env_vars
    background := pp.background
    uses_sudo := pp.uses_sudo
    file_operations := analyzeFileOperations pp.cleaned
    network_operations := analyzeNetworkOperations pp.cleaned
    system_operations := analyzeSystemOperations pp.cleaned }

/-- The body of `CommandParser.parse` with its two internal failure points
(`shlex` tokenization errors and the explicit `Empty command` error)
surfaced as `Except.error`. -/
def parseE (command : Str) : Except String ParsedCommand :=
  match shlexSplit (shlexInput (preprocess command).cleaned) with
  | Except.error e => Except.error e
  | Except.ok [] => Except.error ("Empty command")
  | Except.ok (base :: rest) => Except.ok (successParsed (preprocess command) base rest)

/-- `CommandParser.parse`: the catch-all `except` turns every internal
failure into the minimal parsed command built from the processed command. -/
def parse (command : Str) : ParsedCommand :=
  match shlexSplit (shlexInput (preprocess command).cleaned) with
  | Except.error _ => minimalParsed (preprocess command).cleaned
  | Except.ok [] => minimalParsed (preprocess command).cleaned
  | Except.ok (base :: rest) => successParsed (preprocess command) base rest

/-! ## Lemmas about the blocked-command loop -/

theorem foldl_blockedStep (raw : Str) (bs : List Str) (w : List Str) (a : Bool) :
    bs.foldl (blockedStep raw) (w, a) =
      (w ++ (bs.filter (fun b => isSubstr b raw)).map blockedWarning,
       a && !(bs.any (fun b => isSubstr b raw))) := by
  induction bs generalizing w a with
  | nil => simp
  | cons b bs ih =>
    cases h : isSubstr b raw <;>
      simp [List.foldl_cons, blockedStep, h, ih, Bool.and_assoc]

/-- Claim C1: for every parsed command and every risk level,
`check_command` denies execution exactly when one of the fixed blocked
substrings occurs in `raw_command` (independent of the risk level), and
every matched blocked substring contributes its
"Blocked dangerous command: ..." warning. -/
theorem blocked_substring_gating (p : ParsedCommand) (r : SafetyLevel) :
    ((checkCommand p r).allow_execution = false ↔
      ∃ b ∈ BLOCKED_COMMANDS, isSubstr b p.raw_command = true) ∧
    ∀ b ∈ BLOCKED_COMMANDS, isSubstr b p.raw_command = true →
      blockedWarning b ∈ (checkCommand p r).warnings := by
  have hfold := foldl_blockedStep p.raw_command BLOCKED_COMMANDS [] true
  constructor
  · simp only [checkCommand, hfold]
    simp [List.any_eq_true]
  · intro b hb hsub
    have hmem : blockedWarning b ∈
        (BLOCKED_COMMANDS.filter (fun b => isSubstr b p.raw_command)).map blockedWarning := by
      exact List.mem_map_of_mem _ (List.mem_filter.mpr ⟨hb, hsub⟩)
    simp only [checkCommand, hfold]
    by_cases h1 : p.uses_sudo <;> by_cases h2 : p.file_operations.isEmpty <;>
      by_cases h3 : p.network_operations.isEmpty <;>
        simp [h1, h2, h3, List.mem_append, hmem]

/-- Claim C1 witness: a command whose raw text contains "rm -rf /" is
denied and carries the naming warning. -/
theorem blocked_substring_gating_witness :
    (checkCommand (parse ("rm -rf /".data)) SafetyLevel.low).allow_execution = false ∧
    blockedWarning ("rm -rf /".data) ∈
      (checkCommand (parse ("rm -rf /".data)) SafetyLevel.low).warnings := by
  refine ⟨?_, ?_⟩
  · exact (blocked_substring_gating (parse ("rm -rf /".data)) SafetyLevel.low).1.mpr
      ⟨"rm -rf /".data, by decide, by decide⟩
  · exact (blocked_substring_gating (parse ("rm -rf /".data)) SafetyLevel.low).2
      ("rm -rf /".data) (by decide) (by decide)

/-- Claim C4: `requires_confirmation` is true exactly when sudo is used or
the supplied risk level is not LOW. -/
theorem sudo_or_risk_confirmation (p : ParsedCommand) (r : SafetyLevel) :
    (checkCommand p r).requires_confirmation = (p.uses_sudo || (r != SafetyLevel.low)) := by
  cases h : p.uses_sudo <;> simp [checkCommand, h]

theorem step_eq (c : Bool) (s k : Nat) : (if c then s + k else s) = s + (if c then k else 0) := by
  cases c <;> simp

theorem neg_if (b : Bool) (x y : Nat) : (if !b then x else y) = if b then y else x := by
  cases b <;> simp

/-- Claim C9: the complexity score reported by `get_command_info` equals
the capped sum of the documented contributions and always lies in [0, 10]. -/
theorem complexity_score_formula (p : ParsedCommand) :
    ((getCommandInfo p).complexity_score =
      min (min p.arguments.length 3 + min p.flags.length 3 +
        (if p.pipes.isEmpty then 0 else 2) +
        (if p.redirections.isEmpty then 0 else 1) +
        (if p.uses_sudo then 1 else 0) +
        (if p.file_operations.isEmpty then 0 else 1) +
        (if p.network_operations.isEmpty then 0 else 2) +
        (if p.system_operations.isEmpty then 0 else 2)) 10) ∧
    (getCommandInfo p).complexity_score ≤ 10 := by
  constructor
  · show calculateComplexity p = _
    unfold calculateComplexity
    simp only [step_eq, neg_if, Nat.zero_add]
  · show calculateComplexity p ≤ 10
    unfold calculateComplexity
    exact Nat.min_le_right _ 10

/-- Claim C10: the safety result depends only on the raw command text, the
sudo flag, the (non-)emptiness of the file-operation list, the
(non-)emptiness of the network-operation list, and the supplied risk
level; all other ParsedCommand fields are ignored. -/
theorem check_command_projection (p q : ParsedCommand) (r : SafetyLevel)
    (h1 : p.raw_command = q.raw_command) (h2 : p.uses_sudo = q.uses_sudo)
    (h3 : p.file_operations.isEmpty = q.file_operations.isEmpty)
    (h4 : p.network_operations.isEmpty = q.network_operations.isEmpty) :
    checkCommand p r = checkCommand q r := by
  simp only [checkCommand, h1, h2, h3, h4]

/-- A parsed command with detected system operations and nonempty
structural fields. -/
def pWithSystem : ParsedCommand :=
  { raw_command := "mount /dev/sda1 /mnt".data
    base_command := "mount".data
    arguments := ["/dev/sda1".data, "/mnt".data]
    flags := []
    redirections := []
    pipes := []
    environment_vars := []
    background := false
    uses_sudo := false
    file_operations := []
    network_operations := []
    system_operations := ["mount".data] }

/-- The same raw command with different structural fields and no recorded
system operations. -/
def pPlainVariant : ParsedCommand :=
  { raw_command := "mount /dev/sda1 /mnt".data
    base_command := "other".data
    arguments := []
    flags := ["-o".data]
    redirections := [(">".data, "log".data)]
    pipes := ["wc".data]
    environment_vars := [("A".data, "1".data)]
    background := true
    uses_sudo := false
    file_operations := []
    network_operations := []
    system_operations := [] }

/-- Claim C10 witness: two parsed commands agreeing only on the four used
fields get identical safety results; in particular the recorded system
operations have no effect. -/
theorem check_command_projection_witness :
    checkCommand pWithSystem SafetyLevel.medium = checkCommand pPlainVariant SafetyLevel.medium :=
  check_command_projection pWithSystem pPlainVariant SafetyLevel.medium
    (by decide) (by decide) (by decide) (by decide)

/-- Claim C2: `parse` is total and never propagates an internal failure:
it returns the value of the fallible body when that body succeeds, and the
degraded minimal command otherwise — every failure path is caught. -/
theorem parse_total_catches (s : Str) :
    parse s = (match parseE s with
      | Except.ok p => p
      | Except.error _ => minimalParsed (preprocess s).cleaned) := by
  unfold parse parseE
  cases hx : shlexSplit (shlexInput (preprocess s).cleaned) with
  | error e => rfl
  | ok l => cases l <;> rfl

/-- Claim C6 (code bug): on a command containing the two-character
operator `>>` followed by a target, `_extract_redirections` records the
two single-character pairs ('>', '>') and ('>', 'out') instead of the
intended single pair ('>>', 'out') — the regex `(\d*>>\?|\d*>)` escapes
the question mark, so the `>>` alternative can never match plain `>>`. -/
theorem double_redirect_eval :
    (parse ("echo hi >> out".data)).redirections =
      [(">".data, ">".data), (">".data, "out".data)] := by decide

/-! ## Degraded parse results (claim C3) -/

/-- Claim C3 counterexample: on input `sudo ls "` the parser hits a
tokenization failure, and the degraded result does not preserve the
original input: raw_command is the processed command `ls "` (sudo prefix
already stripped) and uses_sudo is false although the original input
starts with `sudo `. -/
theorem degraded_not_original_cex :
    (parseE ("sudo ls \"".data)).isOk = false ∧
    (parse ("sudo ls \"".data)).raw_command = "ls \"".data ∧
    (parse ("sudo ls \"".data)).raw_command ≠ "sudo ls \"".data ∧
    (parse ("sudo ls \"".data)).uses_sudo = false ∧
    pyStartsWith ("sudo ".data) ("sudo ls \"".data) = true ∧
    (parse ("sudo ls \"".data)).base_command = "ls".data := by decide

/-- Claim C3 (amended): on any internal parse failure, the degraded result
is built from the processed command (input stripped, sudo prefix and
trailing background marker removed) — not from the original input:
base_command is its first whitespace token (or empty), every structured
field is empty, raw_command equals the processed command, and uses_sudo is
recomputed as whether the processed command starts with `sudo `. -/
theorem degraded_parse_shape (s : Str) (h : (parseE s).isOk = false) :
    parse s = minimalParsed (preprocess s).cleaned ∧
    (parse s).raw_command = (preprocess s).cleaned ∧
    (parse s).uses_sudo = pyStartsWith ("sudo ".data) (preprocess s).cleaned ∧
    (parse s).base_command = (pySplitWs (preprocess s).cleaned).headD [] ∧
    (parse s).arguments = [] ∧ (parse s).flags = [] ∧
    (parse s).redirections = [] ∧ (parse s).pipes = [] ∧
    (parse s).environment_vars = [] ∧ (parse s).file_operations = [] ∧
    (parse s).network_operations = [] ∧ (parse s).system_operations = [] := by
  have hm : parse s = minimalParsed (preprocess s).cleaned := by
    unfold parse parseE at *
    revert h
    cases hx : shlexSplit (shlexInput (preprocess s).cleaned) with
    | error e => intro _; rfl
    | ok l =>
      cases l with
      | nil => intro _; rfl
      | cons b r => intro h; simp [Except.isOk, Except.toBool] at h
  rw [hm]
  exact ⟨rfl, rfl, rfl, rfl, rfl, rfl, rfl, rfl, rfl, rfl, rfl, rfl⟩

/-- Claim C3 witness: a concrete failing input for the degraded shape. -/
theorem degraded_parse_shape_witness :
    (parseE ("sudo echo \"".data)).isOk = false ∧
    parse ("sudo echo \"".data) = minimalParsed (preprocess ("sudo echo \"".data)).cleaned :=
  ⟨by decide, (degraded_parse_shape ("sudo echo \"".data) (by decide)).1⟩

/-! ## Environment-variable extraction (claim C8) -/

theorem dictLookup_insert (q k v : Str) (d : List (Str × Str)) :
    dictLookup q (dictInsert k v d) = if k = q then some v else dictLookup q d := by
  induction d with
  | nil =>
    simp only [dictInsert, dictLookup]
  | cons e rest ih =>
    obtain ⟨a, b⟩ := e
    by_cases hak : a = k
    · subst hak
      simp only [dictInsert, if_pos rfl]
      by_cases haq : a = q <;> simp [dictLookup, haq]
    · simp only [dictInsert, if_neg hak]
      by_cases haq : a = q
      · have hkq : ¬(k = q) := fun hh => hak (haq.trans hh.symm)
        simp [dictLookup, haq, if_neg hkq]
      · simp [dictLookup, haq, ih]

theorem foldl_envStep_lookup (parts : List Str) (acc : List (Str × Str)) (k : Str) :
    (dictLookup k (parts.foldl envStep acc)).isSome = true ↔
      ((dictLookup k acc).isSome = true ∨
        ∃ part ∈ parts, part.contains '=' = true ∧ pyStartsWith ['-'] part = false ∧
          pyIsIdentifier (splitEq1 part).1 = true ∧ (splitEq1 part).1 = k) := by
  induction parts generalizing acc with
  | nil => simp
  | cons part rest ih =>
    rw [List.foldl_cons, ih]
    have hstep : (dictLookup k (envStep acc part)).isSome = true ↔
        ((dictLookup k acc).isSome = true ∨
          (part.contains '=' = true ∧ pyStartsWith ['-'] part = false ∧
            pyIsIdentifier (splitEq1 part).1 = true ∧ (splitEq1 part).1 = k)) := by
      unfold envStep
      by_cases h1 : (part.contains '=' && !pyStartsWith ['-'] part) = true
      · rw [if_pos h1]
        rw [Bool.and_eq_true, Bool.not_eq_true'] at h1
        by_cases h2 : pyIsIdentifier (splitEq1 part).1 = true
        · rw [if_pos h2, dictLookup_insert]
          by_cases h3 : (splitEq1 part).1 = k
          · rw [if_pos h3]
            constructor
            · intro _; exact Or.inr ⟨h1.1, h1.2, h2, h3⟩
            · intro _; rfl
          · rw [if_neg h3]
            simp [h3]
        · rw [if_neg h2]
          simp [h2]
      · rw [if_neg h1]
        simp only [Bool.and_eq_true, Bool.not_eq_true'] at h1
        constructor
        · exact Or.inl
        · rintro (hl | ⟨hc, hd, _, _⟩)
          · exact hl
          · exact absurd ⟨hc, hd⟩ h1
    rw [hstep, List.exists_mem_cons_iff]
    tauto

/-- Claim C8 (amended): the environment_vars mapping records a binding for
a name exactly when some whitespace-separated token anywhere in the
command (not only a leading one) contains `=`, does not start with `-`,
and has that name — a valid identifier — before its first `=`. -/
theorem env_vars_any_token (s k : Str) :
    (dictLookup k (extractEnvVars s)).isSome = true ↔
      ∃ part ∈ pySplitWs s, part.contains '=' = true ∧
        pyStartsWith ['-'] part = false ∧
        pyIsIdentifier (splitEq1 part).1 = true ∧ (splitEq1 part).1 = k := by
  unfold extractEnvVars
  rw [foldl_envStep_lookup]
  simp [dictLookup]

/-- Claim C8 witness: in `ls a=b` a binding for `a` is recorded. -/
theorem env_vars_any_token_witness :
    (dictLookup ("a".data) (extractEnvVars ("ls a=b".data))).isSome = true :=
  (env_vars_any_token ("ls a=b".data) ("a".data)).mpr
    ⟨"a=b".data, by decide, by decide, by decide, by decide, by decide⟩

/-- Claim C8 counterexample: in `ls a=b` the token `a=b` occurs after the
base command (it is not a leading assignment), yet parse records it in
environment_vars. -/
theorem env_vars_trailing_cex :
    (parse ("ls a=b".data)).environment_vars = [("a".data, "b".data)] ∧
    (parse ("ls a=b".data)).environment_vars ≠ [] := by decide

/-! ## Pipe extraction (claim C7) -/

theorem parseE_ok_success (s : Str) (h : (parseE s).isOk = true) :
    ∃ b r, shlexSplit (shlexInput (preprocess s).cleaned) = Except.ok (b :: r) ∧
      parse s = successParsed (preprocess s) b r := by
  unfold parse parseE at *
  revert h
  cases hx : shlexSplit (shlexInput (preprocess s).cleaned) with
  | error e => intro h; simp [Except.isOk, Except.toBool] at h
  | ok l =>
    cases l with
    | nil => intro h; simp [Except.isOk, Except.toBool] at h
    | cons b r => intro _; exact ⟨b, r, rfl, rfl⟩

theorem not_contains_forall_ne {l : Str} {c : Char} (h : l.contains c = false) :
    ∀ x ∈ l, ¬((x == c) = true) := by
  intro x hx hbeq
  have hxc : x = c := eq_of_beq hbeq
  subst hxc
  have hmem : l.elem x = true := List.elem_iff.mpr hx
  simp only [List.contains] at h
  rw [hmem] at h
  exact Bool.noConfusion h

/-- Claim C7 counterexample: in `ls | echo "a|b"` the `|` inside the
double-quoted token is also treated as a split point: parse yields the two
pipe segments `echo "a` and `b"` instead of the single segment
`echo "a|b"`. -/
theorem pipes_quoted_cex :
    (parse ("ls | echo \"a|b\"".data)).pipes = ["echo \"a".data, "b\"".data] ∧
    (parse ("ls | echo \"a|b\"".data)).pipes ≠ ["echo \"a|b\"".data] := by decide

/-- Claim C7 (amended): on the success path the pipes field comes from a
naive split of the processed command on every `|` character — a `|` inside
a quoted token splits too — taking the trimmed segments after the first. -/
theorem pipes_naive_split (s : Str) (h : (parseE s).isOk = true) :
    (parse s).pipes = ((pySplitChar '|' (preprocess s).cleaned).drop 1).map pyStrip := by
  obtain ⟨b, r, hs, hp⟩ := parseE_ok_success s h
  rw [hp]
  show extractPipes (preprocess s).cleaned = _
  unfold extractPipes
  by_cases hc : (preprocess s).cleaned.contains '|' = true
  · rw [if_pos hc]
  · rw [if_neg hc]
    have hone : pySplitChar '|' (preprocess s).cleaned = [(preprocess s).cleaned] := by
      unfold pySplitChar List.splitOn
      exact List.splitOnP_eq_single _ _ (not_contains_forall_ne (Bool.eq_false_iff.mpr hc))
    rw [hone]
    rfl

/-- Claim C7 witness: a concrete successful parse with one pipe segment. -/
theorem pipes_naive_split_witness :
    (parseE ("ls | wc".data)).isOk = true ∧
    (parse ("ls | wc".data)).pipes =
      ((pySplitChar '|' (preprocess ("ls | wc".data)).cleaned).drop 1).map pyStrip :=
  ⟨by decide, pipes_naive_split ("ls | wc".data) (by decide)⟩

/-! ## Re-parse stability (claim C5) -/

theorem dropWhile_dropWhile (p : Char → Bool) (l : Str) :
    (l.dropWhile p).dropWhile p = l.dropWhile p := by
  induction l with
  | nil => rfl
  | cons x xs ih =>
    by_cases h : p x = true
    · rw [List.dropWhile_cons_of_pos h]
      exact ih
    · rw [List.dropWhile_cons_of_neg h, List.dropWhile_cons_of_neg h]

theorem dropWhile_fix_head {p : Char → Bool} {x : Char} {xs : Str}
    (h : (x :: xs).dropWhile p = x :: xs) : p x = false := by
  have hh := List.head?_dropWhile_not p (x :: xs)
  rw [h] at hh
  simpa using hh

theorem dropWhile_append_fix {p : Char → Bool} {u : Str} (v : Str)
    (hu : u.dropWhile p = u) (hne : u ≠ []) :
    (u ++ v).dropWhile p = u ++ v := by
  cases u with
  | nil => exact absurd rfl hne
  | cons x xs =>
    have hx := dropWhile_fix_head hu
    rw [List.cons_append, List.dropWhile_cons_of_neg (by simp [hx])]

theorem dropWhile_prefix_fix {p : Char → Bool} {u v : Str}
    (hpre : u <+: v) (hv : v.dropWhile p = v) : u.dropWhile p = u := by
  cases u with
  | nil => rfl
  | cons x xs =>
    obtain ⟨t, ht⟩ := hpre
    rw [← ht, List.cons_append] at hv
    have hx := dropWhile_fix_head hv
    rw [List.dropWhile_cons_of_neg (by simp [hx])]

theorem pyStrip_prefix_dropWhile (s : Str) : pyStrip s <+: s.dropWhile pyIsSpace := by
  unfold pyStrip
  have hsuf : (s.dropWhile pyIsSpace).reverse.dropWhile pyIsSpace <:+
      (s.dropWhile pyIsSpace).reverse := List.dropWhile_suffix _
  have hp := Iff.mpr List.reverse_prefix hsuf
  simpa using hp

theorem pyStrip_front_fix (s : Str) : (pyStrip s).dropWhile pyIsSpace = pyStrip s :=
  dropWhile_prefix_fix (pyStrip_prefix_dropWhile s) (dropWhile_dropWhile _ _)

theorem pyStrip_reverse_fix (s : Str) :
    (pyStrip s).reverse.dropWhile pyIsSpace = (pyStrip s).reverse := by
  unfold pyStrip
  rw [List.reverse_reverse]
  exact dropWhile_dropWhile _ _

theorem pyStrip_idem (s : Str) : pyStrip (pyStrip s) = pyStrip s := by
  calc pyStrip (pyStrip s)
      = (((pyStrip s).dropWhile pyIsSpace).reverse.dropWhile pyIsSpace).reverse := rfl
    _ = ((pyStrip s).reverse.dropWhile pyIsSpace).reverse := by rw [pyStrip_front_fix]
    _ = ((pyStrip s).reverse).reverse := by rw [pyStrip_reverse_fix]
    _ = pyStrip s := List.reverse_reverse _

theorem ite_strip_strip (b : Bool) (x y : Str) (hy : pyStrip y = y) :
    pyStrip (if b then pyStrip x else y) = (if b then pyStrip x else y) := by
  cases b
  · simpa using hy
  · simpa using pyStrip_idem x

theorem cleaned_strip_fix (s : Str) :
    pyStrip (preprocess s).cleaned = (preprocess s).cleaned := by
  simp only [preprocess]
  apply ite_strip_strip
  apply ite_strip_strip
  exact pyStrip_idem s

theorem strip_sudo_append {c : Str} (hfix : pyStrip c = c) (hne : c ≠ []) :
    pyStrip (sudoTok ++ c) = sudoTok ++ c := by
  have hrevfix : c.reverse.dropWhile pyIsSpace = c.reverse := by
    have h6 := pyStrip_reverse_fix c
    rw [hfix] at h6
    exact h6
  have hrev : c.reverse ≠ [] := by
    intro h
    exact hne (List.reverse_eq_nil_iff.mp h)
  have h1 : (sudoTok ++ c).dropWhile pyIsSpace = sudoTok ++ c := by
    rw [show (sudoTok ++ c) = 's' :: ("udo ".data ++ c) from rfl]
    rw [List.dropWhile_cons_of_neg (by decide)]
  show (((sudoTok ++ c).dropWhile pyIsSpace).reverse.dropWhile pyIsSpace).reverse
      = sudoTok ++ c
  rw [h1, List.reverse_append, dropWhile_append_fix _ hrevfix hrev,
    List.reverse_append, List.reverse_reverse, List.reverse_reverse]

theorem shlex_ok_cons_ne_nil {u t : Str} {ts : List Str}
    (h : shlexSplit u = Except.ok (t :: ts)) : u ≠ [] := by
  intro he
  subst he
  simp [shlexSplit, shlexRun] at h

theorem shlexInput_ne_nil {c : Str} (h : shlexInput c ≠ []) : c ≠ [] := by
  intro he
  subst he
  exact h rfl

theorem preprocess_bg_false {s : Str} (hbg : (preprocess s).background = false) :
    (preprocess s).env_vars = extractEnvVars (preprocess s).cleaned ∧
    pyEndsWith ampTok (preprocess s).cleaned = false := by
  simp only [preprocess] at hbg ⊢
  rw [hbg, if_neg Bool.false_ne_true]
  exact ⟨rfl, hbg⟩

theorem preprocess_no_sudo_cleaned {s : Str} (hbg : (preprocess s).background = false)
    (hsu : (preprocess s).uses_sudo = false) :
    pyStartsWith sudoTok (preprocess s).cleaned = false := by
  simp only [preprocess] at hbg hsu ⊢
  rw [hsu, if_neg Bool.false_ne_true] at hbg ⊢
  rw [hbg, if_neg Bool.false_ne_true]
  exact hsu

theorem preprocess_eta (s : Str) (u : Bool) (e : List (Str × Str)) (b : Bool) (c : Str)
    (hu : (preprocess s).uses_sudo = u) (he : (preprocess s).env_vars = e)
    (hb : (preprocess s).background = b) (hc : (preprocess s).cleaned = c) :
    preprocess s = ⟨u, e, b, c⟩ := by
  rw [← hu, ← he, ← hb, ← hc]

theorem preprocess_fixpoint (C : Str) (hfix : pyStrip C = C)
    (hnosudo : pyStartsWith sudoTok C = false)
    (hend : pyEndsWith ampTok C = false) :
    preprocess C = ⟨false, extractEnvVars C, false, C⟩ := by
  simp only [preprocess]
  rw [hfix, hnosudo, if_neg Bool.false_ne_true, hend, if_neg Bool.false_ne_true]

theorem preprocess_sudo_append_eq (C : Str) (hfix : pyStrip C = C) (hne : C ≠ [])
    (hend : pyEndsWith ampTok C = false) :
    preprocess (sudoTok ++ C) = ⟨true, extractEnvVars C, false, C⟩ := by
  have h1 : pyStrip (sudoTok ++ C) = sudoTok ++ C := strip_sudo_append hfix hne
  have h2 : pyStartsWith sudoTok (sudoTok ++ C) = true := by
    unfold pyStartsWith
    exact Iff.mpr List.isPrefixOf_iff_prefix ⟨C, rfl⟩
  have h3 : (sudoTok ++ C).drop 5 = C := by
    have h := List.drop_left sudoTok C
    rw [show sudoTok.length = 5 from rfl] at h
    exact h
  simp only [preprocess]
  rw [h1, h2, if_pos rfl, h3, hfix, hend, if_neg Bool.false_ne_true]

theorem preprocess_reassemble (s : Str)
    (hbg : (preprocess s).background = false)
    (hne : (preprocess s).cleaned ≠ []) :
    preprocess ((if (preprocess s).uses_sudo then sudoTok else []) ++
        (preprocess s).cleaned) = preprocess s := by
  obtain ⟨henv, hend⟩ := preprocess_bg_false hbg
  have hfix : pyStrip (preprocess s).cleaned = (preprocess s).cleaned := cleaned_strip_fix s
  cases hsu : (preprocess s).uses_sudo with
  | true =>
    rw [if_pos rfl]
    rw [preprocess_sudo_append_eq _ hfix hne hend]
    exact (preprocess_eta s true (extractEnvVars (preprocess s).cleaned) false
      (preprocess s).cleaned hsu henv hbg rfl).symm
  | false =>
    rw [if_neg Bool.false_ne_true, List.nil_append]
    rw [preprocess_fixpoint _ hfix (preprocess_no_sudo_cleaned hbg hsu) hend]
    exact (preprocess_eta s false (extractEnvVars (preprocess s).cleaned) false
      (preprocess s).cleaned hsu henv hbg rfl).symm

theorem parse_congr_preprocess {u v : Str} (h : preprocess u = preprocess v) :
    parse u = parse v := by
  unfold parse
  rw [h]

/-- Claim C5 counterexample: for `ls &` parse gives background = true and
reassembles raw_command as `ls&` (no space before the ampersand), but
re-parsing `ls&` does not recognise the background marker: the round trip
changes background and base_command. -/
theorem reparse_background_cex :
    (parse ("ls &".data)).background = true ∧
    (parse ((parse ("ls &".data)).raw_command)).background = false ∧
    (parse ((parse ("ls &".data)).raw_command)).base_command = "ls&".data ∧
    (parse ("ls &".data)).base_command = "ls".data ∧
    parse ((parse ("ls &".data)).raw_command) ≠ parse ("ls &".data) := by decide

/-- Claim C5 (amended): re-parsing the canonical raw_command reproduces
every field, provided the input parsed on the success path (no internal
failure) and has no trailing background marker (parse(x).background =
false); inputs with a background marker — and degraded sudo-prefixed
inputs — break the round trip. -/
theorem reparse_stable (s : Str) (h1 : (parseE s).isOk = true)
    (h2 : (parse s).background = false) :
    parse ((parse s).raw_command) = parse s := by
  obtain ⟨b, r, hs, hp⟩ := parseE_ok_success s h1
  have hbg : (preprocess s).background = false := by
    rw [hp] at h2
    exact h2
  have hne : (preprocess s).cleaned ≠ [] :=
    shlexInput_ne_nil (shlex_ok_cons_ne_nil hs)
  have hraw : (parse s).raw_command =
      (if (preprocess s).uses_sudo then sudoTok else []) ++ (preprocess s).cleaned := by
    rw [hp]
    simp [successParsed, hbg]
  rw [hraw]
  exact parse_congr_preprocess (preprocess_reassemble s hbg hne)

/-- Claim C5 witness: a concrete background-free successful round trip. -/
theorem reparse_stable_witness :
    (parseE ("ls -la /tmp".data)).isOk = true ∧
    (parse ("ls -la /tmp".data)).background = false ∧
    parse ((parse ("ls -la /tmp".data)).raw_command) = parse ("ls -la /tmp".data) :=
  ⟨by decide, by decide, reparse_stable ("ls -la /tmp".data) (by decide) (by decide)⟩

end Bgpt
